import Mathlib

/-!
Verification development for the MeroSign repository.

The repository has two deployment shapes of one model:
  * `src/logic/src/lib.rs` — the Calimero app state `MeroDocsState` with the
    DAO-agreement escrow/vote logic, document signing and consent maps;
  * `src/canisters/merodocs_registry/lib.rs` — the registry canister holding
    contexts, documents and the audit trail (consent is derived from audit
    entries);
  * `src/canisters/dao_agreement/lib.rs` — the agreement orchestrator canister
    with the asynchronous `execute_milestone` that awaits an external ICRC-1
    transfer.

Each Rust function used by a claim is embedded as an executable Lean function
over explicit state records.  Rust `HashMap`/`UnorderedMap` values become
association lists with replace-on-key insertion; `HashSet` values become
duplicate-free lists inserted through `insertS`; `u128` arithmetic uses `Nat`
with an explicit `2 ^ 128` bound where the source uses `checked_add`.
Floating-point search fields (`embeddings`, `chunks`) are outside the model:
no embedded operation reads or writes them.
-/

namespace MeroSign

/-- Association-list lookup by key, first binding wins (models map `get`). -/
def lookupA {α : Type} (k : String) : List (String × α) → Option α
  | [] => none
  | (k', v) :: rest => if k' = k then some v else lookupA k rest

/-- Association-list insert: replaces the first binding of the key, appends a
new binding if the key is absent (models map `insert`). -/
def insertA {α : Type} (k : String) (v : α) : List (String × α) → List (String × α)
  | [] => [(k, v)]
  | (k', v') :: rest => if k' = k then (k, v) :: rest else (k', v') :: insertA k v rest

/-- Map `contains_key`. -/
def containsA {α : Type} (k : String) (m : List (String × α)) : Bool :=
  (lookupA k m).isSome

/-- Set insertion on a duplicate-free list (models `HashSet::insert`). -/
def insertS (x : String) (s : List String) : List String :=
  if x ∈ s then s else s ++ [x]

/-- `u128::MAX + 1`. -/
def U128 : Nat := 2 ^ 128

/-- `u128::checked_add`. -/
def checked_add (a b : Nat) : Option Nat :=
  if a + b < U128 then some (a + b) else none

/-! ## Shared enums (identical in `src/logic/src/lib.rs` and
`src/canisters/dao_agreement/lib.rs`) -/

/-- `MilestoneStatus` from the source. -/
inductive MilestoneStatus
  | Pending
  | ReadyForVoting
  | VotingActive
  | Approved
  | Executed
  | Rejected
deriving DecidableEq, Repr

/-- `MilestoneType` from the source. -/
inductive MilestoneType
  | DocumentSignature (required_doc_id : String)
  | ManualApproval
  | TimeRelease (release_time : Nat)
  | MultiCondition (required_docs : List String) (requires_vote : Bool) (min_time : Option Nat)
deriving DecidableEq, Repr

/-- `AgreementStatus` from the source. -/
inductive AgreementStatus
  | Active
  | Completed
  | Cancelled
deriving DecidableEq, Repr

namespace Logic

/-! ## Embedding of `src/logic/src/lib.rs` (`MeroDocsState`)

`UserId` values appear in the source both directly and through
`format!("{:?}", id)` string keys; the formatting is injective on ids, so the
model uses `String` for identities throughout. -/

/-- `ContextType` from the source. -/
inductive ContextType
  | Default
  | DaoAgreement
deriving DecidableEq, Repr

/-- `PermissionLevel` from the source. -/
inductive PermissionLevel
  | Read
  | Sign
  | Admin
deriving DecidableEq, Repr

/-- `DocumentStatus` from the source. -/
inductive DocumentStatus
  | Pending
  | PartiallySigned
  | FullySigned
deriving DecidableEq, Repr

/-- `DaoMilestone` from the source (`votes: HashMap<String, bool>` becomes a
replace-on-key association list). -/
structure DaoMilestone where
  id : Nat
  title : String
  description : String
  milestone_type : MilestoneType
  recipient : String
  amount : Nat
  status : MilestoneStatus
  votes : List (String × Bool)
  created_at : Nat
  completed_at : Option Nat
deriving DecidableEq, Repr

/-- `DaoAgreement` from the source (`participants: HashSet<String>` becomes a
duplicate-free list maintained through `insertS`). -/
structure DaoAgreement where
  id : String
  title : String
  description : String
  creator : String
  participants : List String
  milestones : List DaoMilestone
  voting_threshold : Nat
  status : AgreementStatus
  created_at : Nat
  total_funding : Nat
  remaining_balance : Nat
deriving DecidableEq, Repr

/-- `DocumentInfo` from the source, restricted to the fields the embedded
operations read or write (the floating-point search fields `embeddings`,
`extracted_text`, `chunks` and the raw `pdf_blob_id` bytes are never consulted
by the operations under verification and are outside the model). -/
structure DocumentInfo where
  id : String
  name : String
  hash : String
  uploaded_by : String
  uploaded_at : Nat
  status : DocumentStatus
  size : Nat
deriving DecidableEq, Repr

/-- The slice of `MeroDocsState` touched by the embedded operations. -/
structure MeroDocsState where
  is_private : Bool
  owner : String
  context_name : String
  participants : List String
  documents : List (String × DocumentInfo)
  permissions : List (String × PermissionLevel)
  consents : List (String × Bool)
  dao_agreements : List (String × DaoAgreement)
  context_type : ContextType
deriving DecidableEq, Repr

/-- The `format!("{:?}|{}", user_id, document_id)` consent key. -/
def consentKey (user_id document_id : String) : String :=
  user_id ++ "|" ++ document_id

/-- `MeroDocsState::set_consent`. -/
def set_consent (user_id document_id : String) (s : MeroDocsState) : MeroDocsState :=
  { s with consents := insertA (consentKey user_id document_id) true s.consents }

/-- `MeroDocsState::has_consented`. -/
def has_consented (user_id document_id : String) (s : MeroDocsState) : Bool :=
  (lookupA (consentKey user_id document_id) s.consents).getD false

/-- Duplicate-id scan of `create_dao_agreement` (the `HashSet::insert` loop). -/
def dupIds : List Nat → Bool
  | [] => false
  | x :: xs => xs.contains x || dupIds xs

/-- The source's `milestones.iter().map(|m| m.amount).sum::<u128>()` is
*unchecked* `u128` arithmetic (unlike the funding path, which uses
`checked_add`): under the release profile each addition wraps modulo
`2 ^ 128`.  This models that wrapping accumulation; under an
overflow-checked profile the same overflowing input panics instead of
returning the typed validation error, so in neither profile does an
overflowing sum produce the validation error. -/
def wrappingSum (l : List Nat) : Nat :=
  l.foldl (fun acc a => (acc + a) % U128) 0

/-- `MeroDocsState::create_dao_agreement`.  Errors leave the state unchanged,
matching the source where the store is only written on the success path.  The
milestone-amount validation compares the *wrapping* `u128` sum against
`total_funding` (see `wrappingSum`). -/
def create_dao_agreement (now : Nat) (agreement_id title : String)
    (participants : List String) (milestones : List DaoMilestone)
    (voting_threshold : Nat) (total_funding : Nat) (s : MeroDocsState) :
    Except String String × MeroDocsState :=
  if s.context_type ≠ ContextType.DaoAgreement then
    (.error "This context is not configured for DAO agreements", s)
  else if agreement_id.isEmpty ∨ title.isEmpty then
    (.error "Agreement ID and title cannot be empty", s)
  else if voting_threshold < 50 ∨ voting_threshold > 100 then
    (.error "Voting threshold must be between 50-100%", s)
  else if milestones.isEmpty then
    (.error "Agreement must have at least one milestone", s)
  else if total_funding = 0 then
    (.error "Total funding must be greater than zero", s)
  else if dupIds (milestones.map (·.id)) then
    (.error "Duplicate milestone ID", s)
  else if wrappingSum (milestones.map (·.amount)) > total_funding then
    (.error "Total milestone amounts exceed total funding", s)
  else if containsA agreement_id s.dao_agreements then
    (.error "Agreement with this ID already exists", s)
  else
    let participant_set := participants.foldl (fun acc p => insertS p acc) []
    let agreement : DaoAgreement :=
      { id := agreement_id, title := title, description := "", creator := s.owner
        participants := participant_set, milestones := milestones
        voting_threshold := voting_threshold, status := .Active, created_at := now
        total_funding := total_funding
        remaining_balance := 0 }
    (.ok "DAO Agreement created successfully",
      { s with dao_agreements := insertA agreement_id agreement s.dao_agreements })

/-- `MeroDocsState::add_milestone_to_agreement`. -/
def add_milestone_to_agreement (agreement_id : String) (milestone : DaoMilestone)
    (s : MeroDocsState) : Except String Unit × MeroDocsState :=
  if s.context_type ≠ ContextType.DaoAgreement then
    (.error "This context is not configured for DAO agreements", s)
  else
    match lookupA agreement_id s.dao_agreements with
    | none => (.error "DAO Agreement not found", s)
    | some a =>
      if (a.milestones.map (·.id)).contains milestone.id then
        (.error "Milestone with this ID already exists", s)
      else
        let a' := { a with milestones := a.milestones ++ [milestone] }
        (.ok (), { s with dao_agreements := insertA agreement_id a' s.dao_agreements })

/-- `MeroDocsState::fund_dao_agreement`; the caller is `self.owner` (the
executor identity). -/
def fund_dao_agreement (agreement_id : String) (amount : Nat) (s : MeroDocsState) :
    Except String String × MeroDocsState :=
  if s.context_type ≠ ContextType.DaoAgreement then
    (.error "This context is not configured for DAO agreements", s)
  else if amount = 0 then
    (.error "Amount must be greater than zero", s)
  else
    match lookupA agreement_id s.dao_agreements with
    | none => (.error "DAO Agreement not found", s)
    | some a =>
      if a.creator ≠ s.owner ∧ s.owner ∉ a.participants then
        (.error "Only agreement participants can fund this agreement", s)
      else
        match checked_add a.total_funding amount with
        | none => (.error "Total funding overflow", s)
        | some new_total =>
          match checked_add a.remaining_balance amount with
          | none => (.error "Balance overflow", s)
          | some new_balance =>
            let a' := { a with total_funding := new_total, remaining_balance := new_balance }
            (.ok "Agreement funded",
              { s with dao_agreements := insertA agreement_id a' s.dao_agreements })

/-- `milestones.iter().find(|m| m.id == milestone_id)` (also the target of the
`position`-then-index-mutate pattern of the source, which acts on the first
milestone with the given id). -/
def findMilestone (ms : List DaoMilestone) (mid : Nat) : Option DaoMilestone :=
  ms.find? (fun m => m.id = mid)

/-- Replace the first milestone with the given id. -/
def setMilestone (mid : Nat) (m' : DaoMilestone) : List DaoMilestone → List DaoMilestone
  | [] => []
  | m :: rest => if m.id = mid then m' :: rest else m :: setMilestone mid m' rest

/-- Number of `true` votes (`votes.values().filter(|&&v| v).count()`). -/
def countTrue (votes : List (String × Bool)) : Nat :=
  (votes.filter (fun p => p.2 = true)).length

/-- Number of `false` votes. -/
def countFalse (votes : List (String × Bool)) : Nat :=
  (votes.filter (fun p => p.2 = false)).length

/-- `MeroDocsState::vote_on_milestone`; the voter is `self.owner`. -/
def vote_on_milestone (agreement_id : String) (milestone_id : Nat) (approve : Bool)
    (s : MeroDocsState) : Except String String × MeroDocsState :=
  if s.context_type ≠ ContextType.DaoAgreement then
    (.error "This context is not configured for DAO agreements", s)
  else
    match lookupA agreement_id s.dao_agreements with
    | none => (.error "DAO Agreement not found", s)
    | some a =>
      if a.creator ≠ s.owner ∧ s.owner ∉ a.participants then
        (.error "Only agreement participants can vote", s)
      else
        match findMilestone a.milestones milestone_id with
        | none => (.error "Milestone not found", s)
        | some m =>
          if m.status = MilestoneStatus.ReadyForVoting ∨ m.status = MilestoneStatus.VotingActive then
            let votes' := insertA s.owner approve m.votes
            let total_participants := a.participants.length + 1
            let approval_votes := countTrue votes'
            let required_votes := (total_participants * a.voting_threshold + 99) / 100
            let result :=
              if approval_votes ≥ required_votes then
                (MilestoneStatus.Approved, "Milestone approved by DAO vote")
              else if countFalse votes' > total_participants - required_votes then
                (MilestoneStatus.Rejected, "Milestone rejected by DAO vote")
              else
                (MilestoneStatus.VotingActive, "Vote recorded, waiting for more votes")
            let m' := { m with votes := votes', status := result.1 }
            let a' := { a with milestones := setMilestone milestone_id m' a.milestones }
            (.ok result.2, { s with dao_agreements := insertA agreement_id a' s.dao_agreements })
          else
            (.error "Milestone is not ready for voting", s)

/-- `MeroDocsState::execute_milestone` (the logic module's synchronous,
simulated payment). -/
def execute_milestone (now : Nat) (agreement_id : String) (milestone_id : Nat)
    (s : MeroDocsState) : Except String String × MeroDocsState :=
  if s.context_type ≠ ContextType.DaoAgreement then
    (.error "This context is not configured for DAO agreements", s)
  else
    match lookupA agreement_id s.dao_agreements with
    | none => (.error "DAO Agreement not found", s)
    | some a =>
      match findMilestone a.milestones milestone_id with
      | none => (.error "Milestone not found", s)
      | some m =>
        if m.status ≠ MilestoneStatus.Approved then
          (.error "Milestone is not approved for execution", s)
        else if a.remaining_balance < m.amount then
          (.error "Insufficient escrow balance", s)
        else
          let m' := { m with status := .Executed, completed_at := some now }
          let a' := { a with milestones := setMilestone milestone_id m' a.milestones
                             remaining_balance := a.remaining_balance - m.amount }
          (.ok "Milestone executed successfully",
            { s with dao_agreements := insertA agreement_id a' s.dao_agreements })

/-- `MeroDocsState::validate_admin_permissions`. -/
def validate_admin_permissions (s : MeroDocsState) : Except String Unit :=
  if s.is_private then
    .error "This method can only be called from shared context"
  else
    match lookupA s.owner s.permissions with
    | some PermissionLevel.Admin => .ok ()
    | some _ => .error "Admin permissions required for this operation"
    | none => .error "User permissions not found"

/-- The status flip applied by `add_participant` to a fully signed document. -/
def flipFully (d : DocumentInfo) : DocumentInfo :=
  { d with status := DocumentStatus.PartiallySigned }

/-- `MeroDocsState::add_participant`.  When the new permission is `Sign`, the
source collects every `FullySigned` document (with status switched to
`PartiallySigned`) into `docs_to_update` and re-inserts each one keyed by its
`id` field. -/
def add_participant (user_id : String) (permission : PermissionLevel)
    (s : MeroDocsState) : Except String Unit × MeroDocsState :=
  match validate_admin_permissions s with
  | .error e => (.error e, s)
  | .ok _ =>
    if user_id ∈ s.participants then
      (.error "User is already a participant", s)
    else
      let s1 := { s with participants := insertS user_id s.participants
                         permissions := insertA user_id permission s.permissions }
      if permission = PermissionLevel.Sign then
        let docs_to_update :=
          (s1.documents.filter (fun p => p.2.status = DocumentStatus.FullySigned)).map
            (fun p => flipFully p.2)
        let documents' := docs_to_update.foldl (fun m d => insertA d.id d m) s1.documents
        (.ok (), { s1 with documents := documents' })
      else
        (.ok (), s1)

/-! ### Operation sequences over the DAO-agreement store (claim C2) -/

/-- One client operation against the DAO-agreement store. -/
inductive DaoOp
  | create (now : Nat) (agreement_id title : String) (participants : List String)
      (milestones : List DaoMilestone) (voting_threshold total_funding : Nat)
  | addMilestone (agreement_id : String) (milestone : DaoMilestone)
  | fund (agreement_id : String) (amount : Nat)
  | vote (agreement_id : String) (milestone_id : Nat) (approve : Bool)
  | execute (now : Nat) (agreement_id : String) (milestone_id : Nat)

/-- Apply one operation; the state component of each embedded function already
models the source's error behaviour (no mutation on error). -/
def applyOp (s : MeroDocsState) : DaoOp → MeroDocsState
  | .create now aid title ps ms vt tf =>
    (create_dao_agreement now aid title ps ms vt tf s).2
  | .addMilestone aid m => (add_milestone_to_agreement aid m s).2
  | .fund aid amount => (fund_dao_agreement aid amount s).2
  | .vote aid mid approve => (vote_on_milestone aid mid approve s).2
  | .execute now aid mid => (execute_milestone now aid mid s).2

/-- Apply a sequence of operations left to right. -/
def applyOps (s : MeroDocsState) (ops : List DaoOp) : MeroDocsState :=
  ops.foldl applyOp s

/-- The escrow invariant: every stored agreement has
`remaining_balance ≤ total_funding`. -/
def balInv (s : MeroDocsState) : Prop :=
  ∀ p ∈ s.dao_agreements, (p.2 : DaoAgreement).remaining_balance ≤ p.2.total_funding

instance (s : MeroDocsState) : Decidable (balInv s) := by
  unfold balInv; infer_instance

end Logic

namespace Registry

/-! ## Embedding of `src/canisters/merodocs_registry/lib.rs`

Principals appear as strings (`caller().to_string()`); the caller and the
clock (`time()`) are explicit parameters.  The stable maps `CONTEXTS`,
`DOCUMENTS` and `AUDIT_TRAIL` become association lists in `RegState`. -/

/-- The registry's `Error` enum. -/
inductive Error
  | InvalidInput (msg : String)
  | NotFound
  | AlreadyExists
  | UpdateConflict (msg : String)
  | Unauthorized
  | DocumentNotReady
  | ConsentRequired
  | ContextNotFound
deriving DecidableEq, Repr

/-- `ContextStatus` from the registry. -/
inductive ContextStatus
  | Active
  | Completed
  | Expired
deriving DecidableEq, Repr

/-- `DocumentStatus` from the registry. -/
inductive DocumentStatus
  | Pending
  | PartiallySigned
  | FullySigned
deriving DecidableEq, Repr

/-- `ContextMetadata` from the registry. -/
structure ContextMetadata where
  title : Option String
  description : Option String
  agreement_type : Option String
  expires_at : Option Nat
deriving DecidableEq, Repr

/-- `ContextRecord` from the registry. -/
structure ContextRecord where
  context_id : String
  admin_id : String
  participants : List String
  document_ids : List String
  context_status : ContextStatus
  metadata : ContextMetadata
  created_at : Nat
deriving DecidableEq, Repr

/-- `DocumentMetadata` from the registry. -/
structure DocumentMetadata where
  created_at : Nat
deriving DecidableEq, Repr

/-- `DocumentRecord` from the registry. -/
structure DocumentRecord where
  document_id : String
  context_id : String
  original_hash : String
  timestamp_original : Nat
  final_hash : Option String
  timestamp_final : Option Nat
  current_signers : List String
  document_status : DocumentStatus
  metadata : DocumentMetadata
deriving DecidableEq, Repr

/-- `AuditAction` from the registry. -/
inductive AuditAction
  | ContextCreated
  | ParticipantAdded
  | DocumentUploaded
  | ConsentGiven
  | SignatureApplied
  | DocumentCompleted
  | ContextCompleted
deriving DecidableEq, Repr

/-- `AuditEntry` from the registry. -/
structure AuditEntry where
  entry_id : String
  user_id : String
  action : AuditAction
  timestamp : Nat
  context_id : String
  document_id : Option String
  consent_given : Option Bool
  document_hash_after_action : Option String
  metadata : Option String
deriving DecidableEq, Repr

/-- The registry's thread-local stable maps. -/
structure RegState where
  contexts : List (String × ContextRecord)
  documents : List (String × DocumentRecord)
  audit_trail : List (String × List AuditEntry)
deriving DecidableEq, Repr

/-- `MAX_ID_SIZE`. -/
def MAX_ID_SIZE : Nat := 128

/-- Character class accepted by `validate_id`. -/
def validChar (c : Char) : Bool :=
  c.isAlphanum || c = '-' || c = '_'

/-- `validate_id`. -/
def validate_id (id : String) : Except Error Unit :=
  if id.isEmpty then
    .error (.InvalidInput "ID cannot be empty.")
  else if id.length > MAX_ID_SIZE then
    .error (.InvalidInput "ID exceeds max length.")
  else if ¬ (id.toList.all validChar) then
    .error (.InvalidInput "ID contains invalid characters.")
  else
    .ok ()

/-- Hexadecimal digit test (`hex::decode` accepts both cases). -/
def isHexChar (c : Char) : Bool :=
  c.isDigit || ('a' ≤ c ∧ c ≤ 'f') || ('A' ≤ c ∧ c ≤ 'F')

/-- `validate_hash`: 64 characters, all hexadecimal. -/
def validate_hash (h : String) : Except Error Unit :=
  if h.length ≠ 64 then
    .error (.InvalidInput "Hash must be 64 characters long.")
  else if ¬ (h.toList.all isHexChar) then
    .error (.InvalidInput "Hash contains non-hexadecimal characters.")
  else
    .ok ()

/-- `generate_audit_id` (`format!("audit_{}", time())`). -/
def generate_audit_id (t : Nat) : String :=
  "audit_" ++ toString t

/-- `add_audit_entry`: append to the context's audit trail. -/
def add_audit_entry (context_id : String) (e : AuditEntry) (s : RegState) : RegState :=
  let cur := (lookupA context_id s.audit_trail).getD []
  { s with audit_trail := insertA context_id (cur ++ [e]) s.audit_trail }

/-- `is_context_participant`. -/
def is_context_participant (context_id user_id : String) (s : RegState) : Bool :=
  match lookupA context_id s.contexts with
  | some c => c.admin_id = user_id ∨ user_id ∈ c.participants
  | none => false

/-- `has_user_given_consent`: scans the context's audit trail for a
`ConsentGiven` entry by this user for this document. -/
def has_user_given_consent (context_id user_id document_id : String) (s : RegState) : Bool :=
  match lookupA context_id s.audit_trail with
  | some entries =>
    entries.any (fun e =>
      decide (e.user_id = user_id ∧ e.action = AuditAction.ConsentGiven ∧
        e.consent_given = some true ∧ e.document_id = some document_id))
  | none => false

/-- `create_context`. -/
def create_context (caller : String) (t : Nat) (context_id : String)
    (participants : List String) (title description agreement_type : Option String)
    (expires_at : Option Nat) (s : RegState) : Except Error RegState :=
  match validate_id context_id with
  | .error e => .error e
  | .ok _ =>
    if containsA context_id s.contexts then
      .error .AlreadyExists
    else
      let ctx : ContextRecord :=
        { context_id := context_id, admin_id := caller, participants := participants
          document_ids := [], context_status := .Active
          metadata := { title := title, description := description
                        agreement_type := agreement_type, expires_at := expires_at }
          created_at := t }
      let s1 := { s with contexts := insertA context_id ctx s.contexts }
      let e : AuditEntry :=
        { entry_id := generate_audit_id t, user_id := caller, action := .ContextCreated
          timestamp := t, context_id := context_id, document_id := none
          consent_given := none, document_hash_after_action := none
          metadata := some "Context created" }
      .ok (add_audit_entry context_id e s1)

/-- `add_participant_to_context`. -/
def add_participant_to_context (caller : String) (t : Nat)
    (context_id participant_id : String) (s : RegState) : Except Error RegState :=
  match validate_id context_id with
  | .error e => .error e
  | .ok _ =>
  match validate_id participant_id with
  | .error e => .error e
  | .ok _ =>
  match lookupA context_id s.contexts with
  | none => .error .ContextNotFound
  | some c =>
    if c.admin_id ≠ caller then
      .error .Unauthorized
    else if participant_id ∈ c.participants ∨ c.admin_id = participant_id then
      .error (.UpdateConflict "User is already a participant in this context.")
    else
      let c' := { c with participants := c.participants ++ [participant_id] }
      let s1 := { s with contexts := insertA context_id c' s.contexts }
      let e : AuditEntry :=
        { entry_id := generate_audit_id t, user_id := caller, action := .ParticipantAdded
          timestamp := t, context_id := context_id, document_id := none
          consent_given := none, document_hash_after_action := none
          metadata := some ("Added participant: " ++ participant_id) }
      .ok (add_audit_entry context_id e s1)

/-- `upload_document_to_context`. -/
def upload_document_to_context (caller : String) (t : Nat)
    (context_id document_id document_hash : String) (s : RegState) :
    Except Error RegState :=
  match validate_id context_id with
  | .error e => .error e
  | .ok _ =>
  match validate_id document_id with
  | .error e => .error e
  | .ok _ =>
  match validate_hash document_hash with
  | .error e => .error e
  | .ok _ =>
    let context_exists : Bool :=
      match lookupA context_id s.contexts with
      | some c => decide (c.admin_id = caller)
      | none => false
    if ¬ context_exists then
      .error .Unauthorized
    else if containsA document_id s.documents then
      .error .AlreadyExists
    else
      let doc : DocumentRecord :=
        { document_id := document_id, context_id := context_id
          original_hash := document_hash, timestamp_original := t
          final_hash := none, timestamp_final := none, current_signers := []
          document_status := .Pending, metadata := { created_at := t } }
      let s1 := { s with documents := insertA document_id doc s.documents }
      let s2 :=
        match lookupA context_id s1.contexts with
        | some c =>
          let c' := { c with document_ids := c.document_ids ++ [document_id] }
          { s1 with contexts := insertA context_id c' s1.contexts }
        | none => s1
      let e : AuditEntry :=
        { entry_id := generate_audit_id t, user_id := caller, action := .DocumentUploaded
          timestamp := t, context_id := context_id, document_id := some document_id
          consent_given := none, document_hash_after_action := some document_hash
          metadata := none }
      .ok (add_audit_entry context_id e s2)

/-- `record_consent_for_context`. -/
def record_consent_for_context (caller : String) (t : Nat)
    (context_id document_id : String) (s : RegState) : Except Error RegState :=
  match validate_id context_id with
  | .error e => .error e
  | .ok _ =>
  match validate_id document_id with
  | .error e => .error e
  | .ok _ =>
  if ¬ is_context_participant context_id caller s then
    .error .Unauthorized
  else
    let document_exists : Bool :=
      match lookupA document_id s.documents with
      | some d => decide (d.context_id = context_id)
      | none => false
    if ¬ document_exists then
      .error .NotFound
    else
      let e : AuditEntry :=
        { entry_id := generate_audit_id t, user_id := caller, action := .ConsentGiven
          timestamp := t, context_id := context_id, document_id := some document_id
          consent_given := some true, document_hash_after_action := none
          metadata := none }
      .ok (add_audit_entry context_id e s)

/-- `required_signers.is_subset(&current_signers)` where `required_signers` is
the context's participant set together with its admin. -/
def requiredSubsetCurrent (c : ContextRecord) (signers : List String) : Bool :=
  (c.admin_id :: c.participants).all (fun p => signers.contains p)

/-- `sign_document`. -/
def sign_document (caller : String) (t : Nat) (document_id : String)
    (consent_acknowledged : Bool) (s : RegState) : Except Error RegState :=
  match validate_id document_id with
  | .error e => .error e
  | .ok _ =>
  if ¬ consent_acknowledged then
    .error .ConsentRequired
  else
    match lookupA document_id s.documents with
    | none => .error .NotFound
    | some d =>
      if ¬ is_context_participant d.context_id caller s then
        .error .Unauthorized
      else if caller ∈ d.current_signers then
        .error (.UpdateConflict "User has already signed this document.")
      else if ¬ has_user_given_consent d.context_id caller document_id s then
        .error .ConsentRequired
      else
        let signers' := d.current_signers ++ [caller]
        let is_complete :=
          match lookupA d.context_id s.contexts with
          | some c => requiredSubsetCurrent c signers'
          | none => false
        let d' :=
          { d with current_signers := signers'
                   document_status :=
                     if is_complete then DocumentStatus.FullySigned
                     else if d.document_status = DocumentStatus.Pending then
                       DocumentStatus.PartiallySigned
                     else d.document_status
                   timestamp_final := if is_complete then some t else d.timestamp_final }
        let s1 := { s with documents := insertA document_id d' s.documents }
        let sigEntry : AuditEntry :=
          { entry_id := generate_audit_id t, user_id := caller, action := .SignatureApplied
            timestamp := t, context_id := d.context_id, document_id := some document_id
            consent_given := some true, document_hash_after_action := none
            metadata := some ("Signed by: " ++ caller) }
        let s2 := add_audit_entry d.context_id sigEntry s1
        if is_complete then
          let doneEntry : AuditEntry :=
            { entry_id := generate_audit_id t, user_id := "system"
              action := .DocumentCompleted, timestamp := t, context_id := d.context_id
              document_id := some document_id, consent_given := none
              document_hash_after_action := none
              metadata := some "Document fully signed" }
          .ok (add_audit_entry d.context_id doneEntry s2)
        else
          .ok s2

end Registry

namespace Canister

/-! ## Embedding of `src/canisters/dao_agreement/lib.rs`

Only `execute_milestone` is needed by the claims against this artifact.  The
source function is `async`: it first reads the milestone and the escrow
balance inside one synchronous `STATE.with` block, then `await`s the external
ICRC-1 transfer, and only in the transfer's `Ok` arm mutates the state in a
second `STATE.with` block.  The embedding therefore splits it into the two
synchronous phases around the suspension point:

  * `execute_milestone_check` — the first `STATE.with` block (lines 533-564).
    It is a pure reader: it returns the captured
    `(milestone_amount, recipient, current_balance, milestone_title)` or an
    error, and performs no state mutation whatsoever — exactly as in the
    source, where the block takes only a shared borrow.
  * `execute_milestone_commit` — the `Ok(block_index)` arm after the `await`
    (lines 578-605): marks the milestone `Executed`, stamps `completed_at`,
    writes `current_balance - milestone_amount` (with the *captured*
    `current_balance`) into `agreement_balances`, and appends the event.

An interleaving of two calls is a sequence of these phase applications. -/

/-- `DocumentRef` from the canister. -/
structure DocumentRef where
  doc_id : String
  title : String
  required_signers : List String
  current_signers : List String
  is_signed_by_all : Bool
deriving DecidableEq, Repr

/-- `Milestone` from the canister. -/
structure Milestone where
  id : Nat
  title : String
  description : String
  milestone_type : MilestoneType
  recipient : String
  amount : Nat
  status : MilestoneStatus
  votes : List (String × Bool)
  created_at : Nat
  completed_at : Option Nat
deriving DecidableEq, Repr

/-- `Agreement` from the canister. -/
structure Agreement where
  id : String
  title : String
  description : String
  creator : String
  participants : List String
  documents : List DocumentRef
  milestones : List Milestone
  voting_threshold : Nat
  status : AgreementStatus
  created_at : Nat
deriving DecidableEq, Repr

/-- `Event` from the canister. -/
structure Event where
  event_type : String
  agreement_id : String
  milestone_id : Option Nat
  document_id : Option String
  actor : String
  details : String
  timestamp : Nat
deriving DecidableEq, Repr

/-- `CanisterState` from the canister. -/
structure CanisterState where
  agreements : List (String × Agreement)
  agreement_balances : List (String × Nat)
  events : List Event
  ledger_canister_id : String
  admin : String
deriving DecidableEq, Repr

/-- `milestones.iter().find(|m| m.id == milestone_id)`. -/
def findM (ms : List Milestone) (mid : Nat) : Option Milestone :=
  ms.find? (fun m => m.id = mid)

/-- Replace the first milestone with the given id. -/
def setM (mid : Nat) (m' : Milestone) : List Milestone → List Milestone
  | [] => []
  | m :: rest => if m.id = mid then m' :: rest else m :: setM mid m' rest

/-- Phase 1 of `execute_milestone`: the synchronous read-and-check block
*before* the `transfer_tokens(...).await` suspension point.  It does not
mutate the state: in particular it leaves the milestone's status `Approved`
and the balance untouched during the wait. -/
def execute_milestone_check (agreement_id : String) (milestone_id : Nat)
    (s : CanisterState) : Except String (Nat × String × Nat × String) :=
  match lookupA agreement_id s.agreements with
  | none => .error "Agreement not found"
  | some a =>
    match findM a.milestones milestone_id with
    | none => .error "Milestone not found"
    | some m =>
      if m.status ≠ MilestoneStatus.Approved then
        .error "Milestone is not approved for execution"
      else
        let current_balance := (lookupA agreement_id s.agreement_balances).getD 0
        if current_balance < m.amount then
          .error "Insufficient escrow balance"
        else
          .ok (m.amount, m.recipient, current_balance, m.title)

/-- Phase 2 of `execute_milestone`: the `Ok` arm after the transfer `await`.
`milestone_amount`, `current_balance` and `milestone_title` are the values
captured by phase 1 before the suspension; the new balance is computed from
the captured `current_balance`, not from the stored one.  The source
`unwrap`s the lookups (they succeeded in phase 1); the model returns the
state unchanged on the unreachable `none` branches. -/
def execute_milestone_commit (caller : String) (t : Nat) (agreement_id : String)
    (milestone_id : Nat) (milestone_amount current_balance : Nat)
    (milestone_title : String) (s : CanisterState) : CanisterState :=
  match lookupA agreement_id s.agreements with
  | none => s
  | some a =>
    match findM a.milestones milestone_id with
    | none => s
    | some m =>
      let m' := { m with status := MilestoneStatus.Executed, completed_at := some t }
      let a' := { a with milestones := setM milestone_id m' a.milestones }
      let ev : Event :=
        { event_type := "execute_milestone", agreement_id := agreement_id
          milestone_id := some milestone_id, document_id := none, actor := caller
          details := "Milestone '" ++ milestone_title ++ "' executed"
          timestamp := t }
      { s with agreements := insertA agreement_id a' s.agreements
               agreement_balances :=
                 insertA agreement_id (current_balance - milestone_amount)
                   s.agreement_balances
               events := s.events ++ [ev] }

end Canister

/-! ## Concrete states and runs used by witnesses and counterexamples -/

/-- `Except.is_ok`. -/
def isOkE {ε α : Type} : Except ε α → Bool
  | .ok _ => true
  | .error _ => false

/-- A valid 64-character hexadecimal hash. -/
def h64 : String :=
  "0123456789abcdef0123456789abcdef0123456789abcdef0123456789abcdef"

namespace Logic

/-- A ready-for-voting manual milestone worth 60 tokens. -/
def demoMilestone : DaoMilestone :=
  { id := 1, title := "m1", description := "", milestone_type := .ManualApproval
    recipient := "R", amount := 60, status := .ReadyForVoting, votes := []
    created_at := 0, completed_at := none }

/-- An agreement by creator `O` with no other participants, threshold 60,
declared funding 100 and empty escrow (one effective voter, so a single
approval reaches quorum and the milestone can then be executed). -/
def demoAgreement : DaoAgreement :=
  { id := "agr", title := "t", description := "", creator := "O"
    participants := [], milestones := [demoMilestone], voting_threshold := 60
    status := .Active, created_at := 0, total_funding := 100
    remaining_balance := 0 }

/-- A shared DAO context owned by `O` holding `demoAgreement`. -/
def demoState : MeroDocsState :=
  { is_private := false, owner := "O", context_name := "ctx", participants := ["O"]
    documents := [], permissions := [("O", .Admin)], consents := []
    dao_agreements := [("agr", demoAgreement)], context_type := .DaoAgreement }

/-- Two milestones whose `u128` amounts are each `2 ^ 127` — individually
representable, but their true sum `2 ^ 128` wraps to 0 in the source's
unchecked `sum::<u128>()`. -/
def c8MilestoneA : DaoMilestone :=
  { id := 1, title := "m1", description := "", milestone_type := .ManualApproval
    recipient := "R", amount := 2 ^ 127, status := .Pending, votes := []
    created_at := 0, completed_at := none }

def c8MilestoneB : DaoMilestone :=
  { c8MilestoneA with id := 2 }

/-- A milestone already carrying two approval votes, voting active. -/
def c3Milestone : DaoMilestone :=
  { id := 1, title := "m1", description := "", milestone_type := .ManualApproval
    recipient := "R", amount := 10, status := .VotingActive
    votes := [("P1", true), ("P2", true)], created_at := 0, completed_at := none }

/-- Creator plus four participants: five effective voters, threshold 60, so
`required = ceil(5 * 60 / 100) = 3`. -/
def c3Agreement : DaoAgreement :=
  { id := "agr3", title := "t", description := "", creator := "O"
    participants := ["P1", "P2", "P3", "P4"], milestones := [c3Milestone]
    voting_threshold := 60, status := .Active, created_at := 0
    total_funding := 100, remaining_balance := 100 }

/-- DAO context holding `c3Agreement`, executor `O`. -/
def c3State : MeroDocsState :=
  { is_private := false, owner := "O", context_name := "ctx", participants := ["O"]
    documents := [], permissions := [("O", .Admin)], consents := []
    dao_agreements := [("agr3", c3Agreement)], context_type := .DaoAgreement }

/-- A fully signed document and a pending one, for the participant-addition
regression. -/
def c7DocFully : DocumentInfo :=
  { id := "d1", name := "n1", hash := "h1", uploaded_by := "O", uploaded_at := 0
    status := .FullySigned, size := 1 }

def c7DocPending : DocumentInfo :=
  { id := "d2", name := "n2", hash := "h2", uploaded_by := "O", uploaded_at := 0
    status := .Pending, size := 2 }

/-- Shared context owned by admin `O` with the two documents above. -/
def c7State : MeroDocsState :=
  { is_private := false, owner := "O", context_name := "ctx", participants := ["O"]
    documents := [("d1", c7DocFully), ("d2", c7DocPending)]
    permissions := [("O", .Admin)], consents := [], dao_agreements := []
    context_type := .Default }

end Logic

namespace Registry

/-- The empty registry. -/
def emptyReg : RegState :=
  { contexts := [], documents := [], audit_trail := [] }

/-- A run through the registry API that leaves a *stale* `FullySigned`
document: context `ctx1` (admin `A`, participant `B`) with document `doc1`
signed by everyone, after which two more Sign-capable participants `C` and
`D` are added, and `C` signs.  `D` has not signed, so the required-signer set
is not a subset of the current signers after the final (successful) sign. -/
def c4Chain : Except Error RegState := do
  let s ← create_context "A" 1 "ctx1" ["B"] none none none none emptyReg
  let s ← upload_document_to_context "A" 2 "ctx1" "doc1" h64 s
  let s ← record_consent_for_context "A" 3 "ctx1" "doc1" s
  let s ← sign_document "A" 4 "doc1" true s
  let s ← record_consent_for_context "B" 5 "ctx1" "doc1" s
  let s ← sign_document "B" 6 "doc1" true s
  let s ← add_participant_to_context "A" 7 "ctx1" "C" s
  let s ← add_participant_to_context "A" 8 "ctx1" "D" s
  let s ← record_consent_for_context "C" 9 "ctx1" "doc1" s
  sign_document "C" 10 "doc1" true s

/-- Status of a document after a registry run. -/
def docStatusAfter (r : Except Error RegState) (did : String) : Option DocumentStatus :=
  match r with
  | .ok s => (lookupA did s.documents).map (·.document_status)
  | .error _ => none

/-- Current signers of a document after a registry run. -/
def docSignersAfter (r : Except Error RegState) (did : String) : Option (List String) :=
  match r with
  | .ok s => (lookupA did s.documents).map (·.current_signers)
  | .error _ => none

/-- Participants of a context after a registry run. -/
def ctxParticipantsAfter (r : Except Error RegState) (cid : String) : Option (List String) :=
  match r with
  | .ok s => (lookupA cid s.contexts).map (·.participants)
  | .error _ => none

/-- Admin of a context after a registry run. -/
def ctxAdminAfter (r : Except Error RegState) (cid : String) : Option String :=
  match r with
  | .ok s => (lookupA cid s.contexts).map (·.admin_id)
  | .error _ => none

/-- The document looked up in the state produced by a successful sign. -/
def signResultDoc (caller : String) (t : Nat) (did : String) (ack : Bool)
    (s : RegState) : Option DocumentRecord :=
  match sign_document caller t did ack s with
  | .ok s' => lookupA did s'.documents
  | .error _ => none

/-- Context `ctx1` (admin `A`, participant `B`) where `A` has already signed
`doc1` and `B` has recorded consent but not signed. -/
def c4WitDoc : DocumentRecord :=
  { document_id := "doc1", context_id := "ctx1", original_hash := h64
    timestamp_original := 0, final_hash := none, timestamp_final := none
    current_signers := ["A"], document_status := .PartiallySigned
    metadata := { created_at := 0 } }

def c4WitCtx : ContextRecord :=
  { context_id := "ctx1", admin_id := "A", participants := ["B"]
    document_ids := ["doc1"], context_status := .Active
    metadata := { title := none, description := none, agreement_type := none
                  expires_at := none }
    created_at := 0 }

def c4WitConsent : AuditEntry :=
  { entry_id := "audit_2", user_id := "B", action := .ConsentGiven, timestamp := 2
    context_id := "ctx1", document_id := some "doc1", consent_given := some true
    document_hash_after_action := none, metadata := none }

def c4WitState : RegState :=
  { contexts := [("ctx1", c4WitCtx)]
    documents := [("doc1", c4WitDoc)]
    audit_trail := [("ctx1", [c4WitConsent])] }

/-- Like `c4WitState` but `B` has *not* recorded consent. -/
def c6WitState : RegState :=
  { contexts := [("ctx1", c4WitCtx)]
    documents := [("doc1", c4WitDoc)]
    audit_trail := [("ctx1", [])] }

/-- Base state for the consent-idempotence runs: participant `B` has not yet
consented to `doc1`. -/
def c9Base : RegState := c6WitState

/-- One `record_consent_for_context` call by `B`. -/
def c9Once : Except Error RegState :=
  record_consent_for_context "B" 3 "ctx1" "doc1" c9Base

/-- The same call repeated on the result of the first. -/
def c9Twice : Except Error RegState :=
  match c9Once with
  | .ok s => record_consent_for_context "B" 3 "ctx1" "doc1" s
  | .error e => .error e

/-- Length of a context's audit trail after a registry run. -/
def auditLenAfter (r : Except Error RegState) (cid : String) : Option Nat :=
  match r with
  | .ok s => (lookupA cid s.audit_trail).map List.length
  | .error _ => none

/-- Consent visibility after a registry run. -/
def hasConsentAfter (r : Except Error RegState) (cid uid did : String) : Option Bool :=
  match r with
  | .ok s => some (has_user_given_consent cid uid did s)
  | .error _ => none

/-- A context's audit trail after a registry run. -/
def auditAfter (r : Except Error RegState) (cid : String) : Option (List AuditEntry) :=
  match r with
  | .ok s => some ((lookupA cid s.audit_trail).getD [])
  | .error _ => none

end Registry

namespace Canister

/-- An approved milestone worth 100 tokens. -/
def c1Milestone : Milestone :=
  { id := 1, title := "m1", description := "", milestone_type := .ManualApproval
    recipient := "R", amount := 100, status := .Approved, votes := []
    created_at := 0, completed_at := none }

/-- The agreement holding `c1Milestone`. -/
def c1Agreement : Agreement :=
  { id := "agr1", title := "t", description := "", creator := "O"
    participants := ["P"], documents := [], milestones := [c1Milestone]
    voting_threshold := 60, status := .Active, created_at := 0 }

/-- Canister state with escrow balance 100 — enough for one payout of
`c1Milestone`, not for two. -/
def c1State : CanisterState :=
  { agreements := [("agr1", c1Agreement)], agreement_balances := [("agr1", 100)]
    events := [], ledger_canister_id := "L", admin := "Adm" }

/-- The state after both interleaved calls commit (each with the values its
check phase captured from `c1State`). -/
def c1AfterBoth : CanisterState :=
  execute_milestone_commit "O" 7 "agr1" 1 100 100 "m1"
    (execute_milestone_commit "O" 5 "agr1" 1 100 100 "m1" c1State)

end Canister

/-! # Theorems

Helper lemmas about the container model, followed by the per-claim
theorems. -/

theorem lookupA_insertA_self {α : Type} (k : String) (v : α) (m : List (String × α)) :
    lookupA k (insertA k v m) = some v := by
  induction m with
  | nil => simp [insertA, lookupA]
  | cons hd tl ih =>
    obtain ⟨k', v'⟩ := hd
    by_cases h : k' = k
    · simp [insertA, lookupA, h]
    · simp [insertA, lookupA, h, ih]

theorem lookupA_insertA_ne {α : Type} {k k' : String} (v : α) (m : List (String × α))
    (h : k' ≠ k) : lookupA k (insertA k' v m) = lookupA k m := by
  induction m with
  | nil => simp [insertA, lookupA, h]
  | cons hd tl ih =>
    obtain ⟨k₀, v₀⟩ := hd
    by_cases h0 : k₀ = k'
    · simp [insertA, lookupA, h0, h]
    · simp only [insertA, if_neg h0]
      by_cases h1 : k₀ = k
      · simp [lookupA, h1]
      · simp [lookupA, h1, ih]

theorem mem_insertA {α : Type} {p : String × α} {k : String} {v : α}
    {m : List (String × α)} (h : p ∈ insertA k v m) : p = (k, v) ∨ p ∈ m := by
  induction m with
  | nil => simpa [insertA] using h
  | cons hd tl ih =>
    obtain ⟨k', v'⟩ := hd
    by_cases h0 : k' = k
    · simp only [insertA, if_pos h0, List.mem_cons] at h
      rcases h with h | h
      · exact Or.inl h
      · exact Or.inr (List.mem_cons_of_mem _ h)
    · simp only [insertA, if_neg h0, List.mem_cons] at h
      rcases h with h | h
      · exact Or.inr (by simp [h])
      · rcases ih h with h' | h'
        · exact Or.inl h'
        · exact Or.inr (List.mem_cons_of_mem _ h')

theorem lookupA_mem {α : Type} {k : String} {v : α} {m : List (String × α)}
    (h : lookupA k m = some v) : (k, v) ∈ m := by
  induction m with
  | nil => simp [lookupA] at h
  | cons hd tl ih =>
    obtain ⟨k', v'⟩ := hd
    by_cases h0 : k' = k
    · simp only [lookupA, if_pos h0] at h
      subst h0
      injection h with h
      simp [h]
    · simp only [lookupA, if_neg h0] at h
      exact List.mem_cons_of_mem _ (ih h)

theorem insertA_insertA_same {α : Type} (k : String) (v : α) (m : List (String × α)) :
    insertA k v (insertA k v m) = insertA k v m := by
  induction m with
  | nil => simp [insertA]
  | cons hd tl ih =>
    obtain ⟨k', v'⟩ := hd
    by_cases h0 : k' = k
    · simp [insertA, h0]
    · simp [insertA, h0, ih]

namespace Logic

theorem checked_add_eq {a b c : Nat} (h : checked_add a b = some c) : c = a + b := by
  unfold checked_add at h
  split at h
  · injection h with h
    exact h.symm
  · exact absurd h (by simp)

theorem balInv_insert {s : MeroDocsState} {k : String} {a : DaoAgreement}
    (h : balInv s) (ha : a.remaining_balance ≤ a.total_funding) :
    balInv { s with dao_agreements := insertA k a s.dao_agreements } := by
  intro p hp
  simp only at hp
  rcases mem_insertA hp with h' | h'
  · rw [h']
    exact ha
  · exact h p h'

theorem balInv_applyOp (s : MeroDocsState) (op : DaoOp) (h : balInv s) :
    balInv (applyOp s op) := by
  cases op with
  | create now aid title ps ms vt tf =>
    simp only [applyOp, create_dao_agreement]
    repeat' split
    all_goals simp only []
    all_goals try exact h
    exact balInv_insert h (Nat.zero_le _)
  | addMilestone aid m =>
    simp only [applyOp, add_milestone_to_agreement]
    split
    · exact h
    · split
      · exact h
      · rename_i a heq
        split
        · exact h
        · exact balInv_insert h (h _ (lookupA_mem heq))
  | fund aid amount =>
    simp only [applyOp, fund_dao_agreement]
    split
    · exact h
    · split
      · exact h
      · split
        · exact h
        · rename_i a heq
          split
          · exact h
          · split
            · exact h
            · rename_i new_total htot
              split
              · exact h
              · rename_i new_balance hbal
                refine balInv_insert h ?_
                simp only [checked_add_eq htot, checked_add_eq hbal]
                exact Nat.add_le_add_right (h _ (lookupA_mem heq)) amount
  | vote aid mid approve =>
    simp only [applyOp, vote_on_milestone]
    split
    · exact h
    · split
      · exact h
      · rename_i a heq
        split
        · exact h
        · split
          · exact h
          · split
            · exact balInv_insert h (h _ (lookupA_mem heq))
            · exact h
  | execute now aid mid =>
    simp only [applyOp, execute_milestone]
    split
    · exact h
    · split
      · exact h
      · rename_i a heq
        split
        · exact h
        · split
          · exact h
          · split
            · exact h
            · refine balInv_insert h ?_
              exact le_trans (Nat.sub_le _ _) (h _ (lookupA_mem heq))

theorem find?_eq_of_findMilestone {ms : List DaoMilestone} {mid : Nat} {m : DaoMilestone}
    (h : findMilestone ms mid = some m) : m.id = mid := by
  have := List.find?_some h
  simpa using this

theorem findMilestone_setMilestone {ms : List DaoMilestone} {mid : Nat} {m m' : DaoMilestone}
    (hfind : findMilestone ms mid = some m) (hid : m'.id = mid) :
    findMilestone (setMilestone mid m' ms) mid = some m' := by
  induction ms with
  | nil => simp [findMilestone] at hfind
  | cons hd tl ih =>
    by_cases h0 : hd.id = mid
    · simp [setMilestone, findMilestone, h0, hid]
    · simp only [findMilestone, List.find?] at hfind
      rw [decide_eq_false h0] at hfind
      simp only [setMilestone, if_neg h0, findMilestone, List.find?, decide_eq_false h0]
      exact ih hfind

end Logic

/-- C2: for every agreement, `remaining_balance ≤ total_funding` holds after
every sequence of DAO-agreement operations (creation, funding, milestone
addition, voting, execution) applied to a state already satisfying the
invariant — in particular to any state whose agreements were produced by
`create_dao_agreement`, which stores `remaining_balance = 0`. -/
theorem C2_remaining_le_total (s : Logic.MeroDocsState) (h : Logic.balInv s)
    (ops : List Logic.DaoOp) : Logic.balInv (Logic.applyOps s ops) := by
  induction ops generalizing s with
  | nil => exact h
  | cons op rest ih => exact ih _ (Logic.balInv_applyOp s op h)

/-- Witness for C2: a concrete created agreement, then fund 80, an approving
vote and a milestone execution; the invariant holds before and after. -/
theorem C2_remaining_le_total_witness :
    Logic.balInv Logic.demoState ∧
      Logic.balInv (Logic.applyOps Logic.demoState
        [.fund "agr" 80, .vote "agr" 1 true, .execute 5 "agr" 1]) :=
  ⟨by decide, C2_remaining_le_total Logic.demoState (by decide) _⟩

/-- C8 (code-bug evidence): the source validates the milestone amounts with
an *unchecked* `sum::<u128>()`, so the sum wraps modulo `2 ^ 128` (release
profile; an overflow-checked profile panics instead of returning the typed
error).  Two representable amounts of `2 ^ 127` each wrap to a sum of 0, so
creation against `total_funding = 100` passes validation and stores the
agreement, although the true amount sum `2 ^ 128` vastly exceeds the declared
funding — the validation error the claim requires is never returned.  (For
sums that do not overflow, such as the spec's 150-against-100 example, the
wrapped sum equals the true sum and the check does fire.) -/
theorem C8_overflow_bypasses_validation :
    isOkE (Logic.create_dao_agreement 0 "agr8" "t8" []
        [Logic.c8MilestoneA, Logic.c8MilestoneB] 60 100 Logic.demoState).1 = true ∧
      (lookupA "agr8" ((Logic.create_dao_agreement 0 "agr8" "t8" []
          [Logic.c8MilestoneA, Logic.c8MilestoneB] 60 100
          Logic.demoState).2).dao_agreements).map
          (fun a => ((a.milestones.map (·.amount)).sum, a.total_funding))
        = some (2 ^ 128, 100) ∧
      Logic.wrappingSum ([Logic.c8MilestoneA, Logic.c8MilestoneB].map (·.amount)) = 0 ∧
      2 ^ 128 > 100 := by
  decide

theorem lookupA_isSome_of_mem {α : Type} {k : String} {v : α} {m : List (String × α)}
    (h : (k, v) ∈ m) : (lookupA k m).isSome := by
  induction m with
  | nil => simp at h
  | cons hd tl ih =>
    obtain ⟨k', v'⟩ := hd
    by_cases h0 : k' = k
    · simp [lookupA, h0]
    · rcases List.mem_cons.mp h with h1 | h1
      · exact absurd (congrArg Prod.fst h1).symm h0
      · simpa [lookupA, h0] using ih h1

theorem lookupA_of_mem_nodup {α : Type} {k : String} {v : α} {m : List (String × α)}
    (h : (k, v) ∈ m) (hnd : (m.map (·.1)).Nodup) : lookupA k m = some v := by
  induction m with
  | nil => simp at h
  | cons hd tl ih =>
    obtain ⟨k', v'⟩ := hd
    simp only [List.map_cons, List.nodup_cons] at hnd
    rcases List.mem_cons.mp h with h1 | h1
    · injection h1 with hk hv
      subst hk
      subst hv
      simp [lookupA]
    · by_cases h0 : k' = k
      · subst h0
        exact absurd (List.mem_map.mpr ⟨(k', v), h1, rfl⟩) hnd.1
      · simpa [lookupA, h0] using ih h1 hnd.2

theorem find?_eq_some_of_unique {α : Type} {p : α → Bool} {u : α} {l : List α}
    (hmem : u ∈ l) (hp : p u = true) (huniq : ∀ w ∈ l, p w = true → w = u) :
    l.find? p = some u := by
  induction l with
  | nil => simp at hmem
  | cons hd tl ih =>
    by_cases h0 : p hd = true
    · rw [List.find?_cons_of_pos _ h0]
      exact congrArg some (huniq hd (List.mem_cons_self _ _) h0)
    · rw [List.find?_cons_of_neg _ (by simpa using h0)]
      rcases List.mem_cons.mp hmem with h1 | h1
      · exact absurd (h1 ▸ hp) h0
      · exact ih h1 (fun w hw => huniq w (List.mem_cons_of_mem _ hw))

theorem lookupA_foldl_notmem {α : Type} (f : α → String) (k : String)
    (us : List α) (m0 : List (String × α)) (h : ∀ u ∈ us, f u ≠ k) :
    lookupA k (us.foldl (fun m d => insertA (f d) d m) m0) = lookupA k m0 := by
  induction us generalizing m0 with
  | nil => rfl
  | cons u rest ih =>
    simp only [List.foldl_cons]
    rw [ih _ (fun x hx => h x (List.mem_cons_of_mem _ hx))]
    exact lookupA_insertA_ne _ _ (h u (List.mem_cons_self _ _))

theorem lookupA_foldl_insert {α : Type} (f : α → String) (k : String)
    (us : List α) (m0 : List (String × α)) (hnd : (us.map f).Nodup) :
    lookupA k (us.foldl (fun m d => insertA (f d) d m) m0) =
      match us.find? (fun d => f d = k) with
      | some d => some d
      | none => lookupA k m0 := by
  induction us generalizing m0 with
  | nil => rfl
  | cons u rest ih =>
    simp only [List.map_cons, List.nodup_cons] at hnd
    simp only [List.foldl_cons]
    by_cases hu : f u = k
    · rw [List.find?_cons_of_pos _ (by simpa using hu)]
      have hrest : ∀ x ∈ rest, f x ≠ k := by
        intro x hx hxk
        exact hnd.1 (List.mem_map.mpr ⟨x, hx, hxk.trans hu.symm⟩)
      rw [lookupA_foldl_notmem f k rest _ hrest, ← hu, lookupA_insertA_self]
    · rw [List.find?_cons_of_neg _ (by simpa using hu)]
      rw [ih _ hnd.2]
      cases List.find? (fun d => decide (f d = k)) rest with
      | some d => rfl
      | none => exact lookupA_insertA_ne _ _ hu

/-- C7: a successful `add_participant` with `Sign` permission flips every
`FullySigned` document to `PartiallySigned`, and this is the only status
change it makes: documents not `FullySigned`, and additions with `Read` or
`Admin` permission, keep their status (and their whole record) unchanged.
The hypotheses are the store invariants `upload_document` establishes:
distinct map keys and key/`id`-field coherence. -/
theorem C7_sign_permission_regression (user_id : String)
    (perm : Logic.PermissionLevel) (s : Logic.MeroDocsState)
    (hkeys : (s.documents.map (·.1)).Nodup)
    (hco : ∀ p ∈ s.documents, (p.2 : Logic.DocumentInfo).id = p.1)
    (hok : (Logic.add_participant user_id perm s).1 = .ok ())
    (k : String) :
    lookupA k ((Logic.add_participant user_id perm s).2).documents =
      (lookupA k s.documents).map (fun d =>
        if perm = Logic.PermissionLevel.Sign ∧
            d.status = Logic.DocumentStatus.FullySigned
        then Logic.flipFully d else d) := by
  cases hval : Logic.validate_admin_permissions s with
  | error e => simp [Logic.add_participant, hval] at hok
  | ok u =>
    by_cases hmem : user_id ∈ s.participants
    · simp [Logic.add_participant, hval, hmem] at hok
    · by_cases hperm : perm = Logic.PermissionLevel.Sign
      · -- Sign permission: the flip pass runs over the document map.
        simp only [Logic.add_participant, hval, if_neg hmem, if_pos hperm]
        have hmapf :
            (((s.documents.filter
                (fun p => p.2.status = Logic.DocumentStatus.FullySigned)).map
                (fun p => Logic.flipFully p.2)).map (fun d => d.id)) =
              ((s.documents.filter
                (fun p => p.2.status = Logic.DocumentStatus.FullySigned)).map (·.1)) := by
          rw [List.map_map]
          refine List.map_congr_left ?_
          intro p hp
          exact hco p (List.mem_filter.mp hp).1
        have hnd :
            (((s.documents.filter
                (fun p => p.2.status = Logic.DocumentStatus.FullySigned)).map
                (fun p => Logic.flipFully p.2)).map (fun d => d.id)).Nodup := by
          rw [hmapf]
          exact List.Nodup.sublist (List.Sublist.map _ (List.filter_sublist _)) hkeys
        rw [lookupA_foldl_insert (fun d : Logic.DocumentInfo => d.id) k
          ((s.documents.filter
            (fun p => p.2.status = Logic.DocumentStatus.FullySigned)).map
            (fun p => Logic.flipFully p.2)) s.documents hnd]
        cases hlook : lookupA k s.documents with
        | none =>
          have hfind :
              ((s.documents.filter
                (fun p => p.2.status = Logic.DocumentStatus.FullySigned)).map
                (fun p => Logic.flipFully p.2)).find? (fun d => decide (d.id = k))
                = none := by
            cases hf : ((s.documents.filter
                (fun p => p.2.status = Logic.DocumentStatus.FullySigned)).map
                (fun p => Logic.flipFully p.2)).find? (fun d => decide (d.id = k)) with
            | none => rfl
            | some w =>
              exfalso
              have hw := List.find?_some hf
              obtain ⟨⟨p1, p2⟩, hp, rfl⟩ :=
                List.mem_map.mp (List.mem_of_find?_eq_some hf)
              have hpdoc := (List.mem_filter.mp hp).1
              have hidp : p2.id = p1 := by simpa using hco _ hpdoc
              have hk2 : p2.id = k := by simpa [Logic.flipFully] using hw
              have hp1 : p1 = k := hidp ▸ hk2
              subst hp1
              have := lookupA_isSome_of_mem hpdoc
              rw [hlook] at this
              simp at this
          rw [hfind]
          simp
        | some d =>
          have hdmem := lookupA_mem hlook
          have hdid : d.id = k := hco (k, d) hdmem
          by_cases hful : d.status = Logic.DocumentStatus.FullySigned
          · have hfind :
                ((s.documents.filter
                  (fun p => p.2.status = Logic.DocumentStatus.FullySigned)).map
                  (fun p => Logic.flipFully p.2)).find? (fun w => decide (w.id = k))
                  = some (Logic.flipFully d) := by
              refine find?_eq_some_of_unique ?_ ?_ ?_
              · exact List.mem_map.mpr
                  ⟨(k, d), List.mem_filter.mpr ⟨hdmem, by simpa using hful⟩, rfl⟩
              · simpa [Logic.flipFully] using hdid
              · intro w hw hpw
                obtain ⟨⟨p1, p2⟩, hp, rfl⟩ := List.mem_map.mp hw
                have hpdoc := (List.mem_filter.mp hp).1
                have hpful : p2.status = Logic.DocumentStatus.FullySigned := by
                  simpa using (List.mem_filter.mp hp).2
                have hidp : p2.id = p1 := by simpa using hco _ hpdoc
                have hk2 : p2.id = k := by simpa [Logic.flipFully] using hpw
                have hp1 : p1 = k := hidp ▸ hk2
                subst hp1
                have : p2 = d := by
                  have h1 := lookupA_of_mem_nodup hpdoc hkeys
                  rw [hlook] at h1
                  injection h1 with h2
                  exact h2.symm
                rw [this]
            rw [hfind]
            simp [hperm, hful]
          · have hnone : ∀ w ∈ ((s.documents.filter
                (fun p => p.2.status = Logic.DocumentStatus.FullySigned)).map
                (fun p => Logic.flipFully p.2)), (fun d => d.id) w ≠ k := by
              intro w hw
              obtain ⟨⟨p1, p2⟩, hp, rfl⟩ := List.mem_map.mp hw
              have hpdoc := (List.mem_filter.mp hp).1
              have hpful : p2.status = Logic.DocumentStatus.FullySigned := by
                simpa using (List.mem_filter.mp hp).2
              intro heq
              have hidp : p2.id = p1 := by simpa using hco _ hpdoc
              have hk2 : p2.id = k := by simpa [Logic.flipFully] using heq
              have hp1 : p1 = k := hidp ▸ hk2
              subst hp1
              have : p2 = d := by
                have h1 := lookupA_of_mem_nodup hpdoc hkeys
                rw [hlook] at h1
                injection h1 with h2
                exact h2.symm
              rw [this] at hpful
              exact hful hpful
            have hfindn : ((s.documents.filter
                (fun p => p.2.status = Logic.DocumentStatus.FullySigned)).map
                (fun p => Logic.flipFully p.2)).find? (fun w => decide (w.id = k))
                = none := by
              rw [List.find?_eq_none]
              intro w hw
              simpa using hnone w hw
            rw [hfindn]
            simp [hlook, hperm, hful]
      · -- Read or Admin: the document map is untouched.
        simp only [Logic.add_participant, hval, if_neg hmem, if_neg hperm]
        cases lookupA k s.documents with
        | none => rfl
        | some d => simp [hperm]

/-- Witness for C7: on a two-document store (`d1` fully signed, `d2` pending)
adding `D` with `Sign` permission flips `d1` and leaves `d2` alone; the admin
check passes for owner `O`. -/
theorem C7_sign_permission_regression_witness :
    lookupA "d1" ((Logic.add_participant "D" Logic.PermissionLevel.Sign
        Logic.c7State).2).documents =
      (lookupA "d1" Logic.c7State.documents).map (fun d =>
        if Logic.PermissionLevel.Sign = Logic.PermissionLevel.Sign ∧
            d.status = Logic.DocumentStatus.FullySigned
        then Logic.flipFully d else d) ∧
    lookupA "d2" ((Logic.add_participant "D" Logic.PermissionLevel.Sign
        Logic.c7State).2).documents =
      (lookupA "d2" Logic.c7State.documents).map (fun d =>
        if Logic.PermissionLevel.Sign = Logic.PermissionLevel.Sign ∧
            d.status = Logic.DocumentStatus.FullySigned
        then Logic.flipFully d else d) :=
  ⟨C7_sign_permission_regression "D" Logic.PermissionLevel.Sign Logic.c7State
      (by decide) (by decide) rfl "d1",
    C7_sign_permission_regression "D" Logic.PermissionLevel.Sign Logic.c7State
      (by decide) (by decide) rfl "d2"⟩

/-- C3: after a vote on a milestone in status `ReadyForVoting` or
`VotingActive`, with `N` = participant-set size + 1 and
`required = (N * threshold + 99) / 100` in integer arithmetic, the milestone's
new status is `Approved` when the count of `true` votes reaches `required`,
else `Rejected` when the count of `false` votes exceeds `N - required`, and
`VotingActive` otherwise (the tally includes the just-upserted vote). -/
theorem C3_vote_quorum (s : Logic.MeroDocsState) (aid : String) (mid : Nat)
    (approve : Bool) (a : Logic.DaoAgreement) (m : Logic.DaoMilestone)
    (hctx : s.context_type = Logic.ContextType.DaoAgreement)
    (ha : lookupA aid s.dao_agreements = some a)
    (hauth : a.creator = s.owner ∨ s.owner ∈ a.participants)
    (hm : Logic.findMilestone a.milestones mid = some m)
    (hst : m.status = MilestoneStatus.ReadyForVoting ∨
      m.status = MilestoneStatus.VotingActive) :
    ∃ a', lookupA aid ((Logic.vote_on_milestone aid mid approve s).2).dao_agreements
        = some a' ∧
      Logic.findMilestone a'.milestones mid = some
        { m with
          votes := insertA s.owner approve m.votes
          status :=
            if Logic.countTrue (insertA s.owner approve m.votes) ≥
                ((a.participants.length + 1) * a.voting_threshold + 99) / 100 then
              MilestoneStatus.Approved
            else if Logic.countFalse (insertA s.owner approve m.votes) >
                (a.participants.length + 1) -
                  ((a.participants.length + 1) * a.voting_threshold + 99) / 100 then
              MilestoneStatus.Rejected
            else MilestoneStatus.VotingActive } := by
  have hne : ¬ s.context_type ≠ Logic.ContextType.DaoAgreement := by simp [hctx]
  have hauth' : ¬ (a.creator ≠ s.owner ∧ s.owner ∉ a.participants) := by
    rcases hauth with h | h
    · exact fun hc => hc.1 h
    · exact fun hc => hc.2 h
  have hid : m.id = mid := Logic.find?_eq_of_findMilestone hm
  simp only [Logic.vote_on_milestone, if_neg hne, ha, if_neg hauth', hm, if_pos hst]
  by_cases h1 : Logic.countTrue (insertA s.owner approve m.votes) ≥
      ((a.participants.length + 1) * a.voting_threshold + 99) / 100
  · simp only [if_pos h1]
    exact ⟨_, lookupA_insertA_self _ _ _, Logic.findMilestone_setMilestone hm hid⟩
  · by_cases h2 : Logic.countFalse (insertA s.owner approve m.votes) >
        (a.participants.length + 1) -
          ((a.participants.length + 1) * a.voting_threshold + 99) / 100
    · simp only [if_neg h1, if_pos h2]
      exact ⟨_, lookupA_insertA_self _ _ _, Logic.findMilestone_setMilestone hm hid⟩
    · simp only [if_neg h1, if_neg h2]
      exact ⟨_, lookupA_insertA_self _ _ _, Logic.findMilestone_setMilestone hm hid⟩

/-- Witness for C3: five effective voters, threshold 60 (`required = 3`); the
creator's approving vote is the third `true` vote, and the milestone becomes
`Approved`. -/
theorem C3_vote_quorum_witness :
    ∃ a', lookupA "agr3"
        ((Logic.vote_on_milestone "agr3" 1 true Logic.c3State).2).dao_agreements
        = some a' ∧
      Logic.findMilestone a'.milestones 1 = some
        { Logic.c3Milestone with
          votes := insertA Logic.c3State.owner true Logic.c3Milestone.votes
          status :=
            if Logic.countTrue (insertA Logic.c3State.owner true Logic.c3Milestone.votes) ≥
                ((Logic.c3Agreement.participants.length + 1) *
                  Logic.c3Agreement.voting_threshold + 99) / 100 then
              MilestoneStatus.Approved
            else if Logic.countFalse
                (insertA Logic.c3State.owner true Logic.c3Milestone.votes) >
                (Logic.c3Agreement.participants.length + 1) -
                  ((Logic.c3Agreement.participants.length + 1) *
                    Logic.c3Agreement.voting_threshold + 99) / 100 then
              MilestoneStatus.Rejected
            else MilestoneStatus.VotingActive } :=
  C3_vote_quorum Logic.c3State "agr3" 1 true Logic.c3Agreement Logic.c3Milestone
    rfl (by decide) (Or.inl rfl) (by decide) (Or.inr rfl)

/-- C10: a successful `create_dao_agreement` with declared funding `F` stores
an agreement with `total_funding = F` but `remaining_balance = 0`: the
declared funding is not escrowed at creation (and `F > 0`, since creation
rejects zero funding). -/
theorem C10_creation_zero_balance (now : Nat) (agreement_id title : String)
    (participants : List String) (milestones : List Logic.DaoMilestone)
    (voting_threshold total_funding : Nat) (s : Logic.MeroDocsState)
    (h : isOkE (Logic.create_dao_agreement now agreement_id title participants milestones
        voting_threshold total_funding s).1 = true) :
    0 < total_funding ∧
      ∃ a, lookupA agreement_id
          ((Logic.create_dao_agreement now agreement_id title participants milestones
            voting_threshold total_funding s).2).dao_agreements = some a ∧
        a.total_funding = total_funding ∧ a.remaining_balance = 0 := by
  simp only [Logic.create_dao_agreement] at h ⊢
  repeat' split at h
  all_goals simp_all [isOkE, lookupA_insertA_self]
  refine ⟨by omega, ?_⟩
  rw [if_neg (by omega), if_neg (by omega)]
  exact ⟨_, lookupA_insertA_self _ _ _, rfl, rfl⟩

/-- Witness for C10: creating agreement `agr2` with funding 100 on the demo
DAO context succeeds, stores `total_funding = 100` and `remaining_balance = 0`. -/
theorem C10_creation_zero_balance_witness :
    0 < 100 ∧
      ∃ a, lookupA "agr2"
          ((Logic.create_dao_agreement 0 "agr2" "t2" [] [Logic.demoMilestone]
            60 100 Logic.demoState).2).dao_agreements = some a ∧
        a.total_funding = 100 ∧ a.remaining_balance = 0 :=
  C10_creation_zero_balance 0 "agr2" "t2" [] [Logic.demoMilestone] 60 100
    Logic.demoState (by decide)

namespace Registry

theorem add_audit_entry_documents (cid : String) (e : AuditEntry) (st : RegState) :
    (add_audit_entry cid e st).documents = st.documents := rfl

end Registry

/-- C4 counterexample: through the registry API, `ctx1` reaches a state where
`doc1` is `FullySigned` by `{A, B}`, then Sign-capable participants `C` and
`D` are added (which does not regress the document status), and `C` signs
successfully.  The required-signer set `{A, B, C, D}` is *not* a subset of the
current signers `{A, B, C}`, yet the document's status after this successful
sign is still `FullySigned` — not `PartiallySigned` as the claim demands. -/
theorem C4_counterexample :
    Registry.docStatusAfter Registry.c4Chain "doc1"
        = some Registry.DocumentStatus.FullySigned ∧
      Registry.docSignersAfter Registry.c4Chain "doc1" = some ["A", "B", "C"] ∧
      Registry.ctxParticipantsAfter Registry.c4Chain "ctx1" = some ["B", "C", "D"] ∧
      Registry.ctxAdminAfter Registry.c4Chain "ctx1" = some "A" := by
  decide

/-- C4 (amended): a successful `sign_document` appends the signer to
`current_signers` and then sets the status to `FullySigned` if the context's
required signers (participants plus admin) are all among the new signers;
otherwise it sets `PartiallySigned` only when the previous status was
`Pending`, and leaves the previous status — including a stale `FullySigned` —
unchanged otherwise. -/
theorem C4_sign_status_amended (caller : String) (t : Nat) (did : String)
    (ack : Bool) (s : Registry.RegState) (d : Registry.DocumentRecord)
    (hd : lookupA did s.documents = some d)
    (hok : isOkE (Registry.sign_document caller t did ack s) = true) :
    ∃ d', Registry.signResultDoc caller t did ack s = some d' ∧
      d'.current_signers = d.current_signers ++ [caller] ∧
      d'.document_status =
        (if (match lookupA d.context_id s.contexts with
             | some c => Registry.requiredSubsetCurrent c (d.current_signers ++ [caller])
             | none => false)
         then Registry.DocumentStatus.FullySigned
         else if d.document_status = Registry.DocumentStatus.Pending
         then Registry.DocumentStatus.PartiallySigned
         else d.document_status) := by
  cases hv : Registry.validate_id did with
  | error e => simp [Registry.sign_document, hv, isOkE] at hok
  | ok u =>
    by_cases hack : ack = true
    · by_cases hpart : Registry.is_context_participant d.context_id caller s = true
      · by_cases hsig : caller ∈ d.current_signers
        · simp [Registry.sign_document, hv, hack, hd, hpart, hsig, isOkE] at hok
        · by_cases hcons : Registry.has_user_given_consent d.context_id caller did s = true
          · simp only [Registry.signResultDoc, Registry.sign_document, hv, hack, hd,
              hpart, hsig, hcons, if_true, if_false, not_true, not_false_iff,
              ite_false, ite_true]
            by_cases hcomp : (match lookupA d.context_id s.contexts with
                | some c =>
                  Registry.requiredSubsetCurrent c (d.current_signers ++ [caller])
                | none => false) = true
            · simp only [hcomp, if_true, ite_true,
                Registry.add_audit_entry_documents]
              exact ⟨_, lookupA_insertA_self _ _ _, rfl, rfl⟩
            · simp only [hcomp, if_false, ite_false, Bool.false_eq_true,
                Registry.add_audit_entry_documents]
              exact ⟨_, lookupA_insertA_self _ _ _, rfl, rfl⟩
          · simp [Registry.sign_document, hv, hack, hd, hpart, hsig, hcons, isOkE] at hok
      · simp [Registry.sign_document, hv, hack, hd, hpart, isOkE] at hok
    · simp [Registry.sign_document, hv, hack, isOkE] at hok

/-- Witness for the amended C4: in `c4WitState`, `B` (with consent) signs
`doc1` already signed by `A`; the new signer set `{A, B}` covers the required
set, so the status becomes `FullySigned`. -/
theorem C4_sign_status_amended_witness :
    ∃ d', Registry.signResultDoc "B" 5 "doc1" true Registry.c4WitState = some d' ∧
      d'.current_signers = Registry.c4WitDoc.current_signers ++ ["B"] ∧
      d'.document_status =
        (if (match lookupA Registry.c4WitDoc.context_id Registry.c4WitState.contexts with
             | some c => Registry.requiredSubsetCurrent c
                 (Registry.c4WitDoc.current_signers ++ ["B"])
             | none => false)
         then Registry.DocumentStatus.FullySigned
         else if Registry.c4WitDoc.document_status = Registry.DocumentStatus.Pending
         then Registry.DocumentStatus.PartiallySigned
         else Registry.c4WitDoc.document_status) :=
  C4_sign_status_amended "B" 5 "doc1" true Registry.c4WitState Registry.c4WitDoc
    (by decide) (by decide)

/-- C5: whenever the signer is already in the document's `current_signers`,
`sign_document` fails — and no signature is recorded, since the model (like
the source, which mutates the store only after all checks pass) returns an
error without producing a new state; when the preceding checks (id validity,
consent acknowledgement, participant membership) pass, the error is precisely
the already-signed `UpdateConflict`. -/
theorem C5_already_signed (caller : String) (t : Nat) (did : String) (ack : Bool)
    (s : Registry.RegState) (d : Registry.DocumentRecord)
    (hd : lookupA did s.documents = some d)
    (hsig : caller ∈ d.current_signers) :
    (∃ e, Registry.sign_document caller t did ack s = .error e) ∧
      (Registry.validate_id did = .ok () → ack = true →
        Registry.is_context_participant d.context_id caller s = true →
        Registry.sign_document caller t did ack s =
          .error (.UpdateConflict "User has already signed this document.")) := by
  constructor
  · cases hv : Registry.validate_id did with
    | error e => exact ⟨e, by simp [Registry.sign_document, hv]⟩
    | ok u =>
      by_cases hack : ack = true
      · by_cases hpart : Registry.is_context_participant d.context_id caller s = true
        · exact ⟨.UpdateConflict "User has already signed this document.",
            by simp [Registry.sign_document, hv, hack, hd, hpart, hsig]⟩
        · exact ⟨.Unauthorized, by simp [Registry.sign_document, hv, hack, hd, hpart]⟩
      · exact ⟨.ConsentRequired, by simp [Registry.sign_document, hv, hack]⟩
  · intro hv hack hpart
    simp [Registry.sign_document, hv, hack, hd, hpart, hsig]

/-- Witness for C5: `A` has already signed `doc1` in `c4WitState`; a second
sign attempt by `A` fails with the already-signed conflict. -/
theorem C5_already_signed_witness :
    Registry.sign_document "A" 7 "doc1" true Registry.c4WitState =
      .error (.UpdateConflict "User has already signed this document.") :=
  (C5_already_signed "A" 7 "doc1" true Registry.c4WitState Registry.c4WitDoc
      (by decide) (by decide)).2 rfl rfl (by decide)

/-- C6: without a recorded consent for this signer and document,
`sign_document` fails (and hence applies no signature); when the other checks
pass the error is precisely `ConsentRequired`; and conversely every
successful sign had a recorded consent. -/
theorem C6_consent_gate (caller : String) (t : Nat) (did : String) (ack : Bool)
    (s : Registry.RegState) (d : Registry.DocumentRecord)
    (hd : lookupA did s.documents = some d) :
    (Registry.has_user_given_consent d.context_id caller did s = false →
      ∃ e, Registry.sign_document caller t did ack s = .error e) ∧
    (Registry.has_user_given_consent d.context_id caller did s = false →
      Registry.validate_id did = .ok () → ack = true →
      Registry.is_context_participant d.context_id caller s = true →
      caller ∉ d.current_signers →
      Registry.sign_document caller t did ack s = .error .ConsentRequired) ∧
    (∀ s', Registry.sign_document caller t did ack s = .ok s' →
      Registry.has_user_given_consent d.context_id caller did s = true) := by
  refine ⟨?_, ?_, ?_⟩
  · intro hnc
    cases hv : Registry.validate_id did with
    | error e => exact ⟨e, by simp [Registry.sign_document, hv]⟩
    | ok u =>
      by_cases hack : ack = true
      · by_cases hpart : Registry.is_context_participant d.context_id caller s = true
        · by_cases hsig : caller ∈ d.current_signers
          · exact ⟨.UpdateConflict "User has already signed this document.",
              by simp [Registry.sign_document, hv, hack, hd, hpart, hsig]⟩
          · exact ⟨.ConsentRequired,
              by simp [Registry.sign_document, hv, hack, hd, hpart, hsig, hnc]⟩
        · exact ⟨.Unauthorized, by simp [Registry.sign_document, hv, hack, hd, hpart]⟩
      · exact ⟨.ConsentRequired, by simp [Registry.sign_document, hv, hack]⟩
  · intro hnc hv hack hpart hsig
    simp [Registry.sign_document, hv, hack, hd, hpart, hsig, hnc]
  · intro s' hok
    cases hc : Registry.has_user_given_consent d.context_id caller did s with
    | true => rfl
    | false =>
      exfalso
      cases hv : Registry.validate_id did with
      | error e => simp [Registry.sign_document, hv] at hok
      | ok u =>
        by_cases hack : ack = true
        · by_cases hpart : Registry.is_context_participant d.context_id caller s = true
          · by_cases hsig : caller ∈ d.current_signers
            · simp [Registry.sign_document, hv, hack, hd, hpart, hsig] at hok
            · simp [Registry.sign_document, hv, hack, hd, hpart, hsig, hc] at hok
          · simp [Registry.sign_document, hv, hack, hd, hpart] at hok
        · simp [Registry.sign_document, hv, hack] at hok

/-- Witness for C6: in `c6WitState` participant `B` never recorded consent;
`B`'s sign attempt (with the consent box ticked) fails with
`ConsentRequired`. -/
theorem C6_consent_gate_witness :
    Registry.sign_document "B" 7 "doc1" true Registry.c6WitState =
      .error Registry.Error.ConsentRequired :=
  (C6_consent_gate "B" 7 "doc1" true Registry.c6WitState Registry.c4WitDoc
      (by decide)).2.1 (by decide) rfl rfl (by decide) (by decide)

/-- C9 counterexample: recording consent twice through the registry is *not*
state-idempotent — each call appends a `ConsentGiven` audit entry, so after
two calls the audit trail holds two entries instead of one and the states
differ (consent visibility is `true` either way). -/
theorem C9_counterexample :
    Registry.auditLenAfter Registry.c9Once "ctx1" = some 1 ∧
      Registry.auditLenAfter Registry.c9Twice "ctx1" = some 2 ∧
      Registry.auditAfter Registry.c9Twice "ctx1" ≠
        Registry.auditAfter Registry.c9Once "ctx1" ∧
      Registry.hasConsentAfter Registry.c9Once "ctx1" "B" "doc1" = some true ∧
      Registry.hasConsentAfter Registry.c9Twice "ctx1" "B" "doc1" = some true := by
  decide

/-- C9 (amended): consent recording is idempotent in its observable consent
state, and fully idempotent in the logic module: `set_consent` twice equals
`set_consent` once and `has_consented` is true afterwards; the registry's
`record_consent_for_context` makes `has_user_given_consent` true but appends
one `ConsentGiven` audit entry per successful call, so the stored state after
two calls differs from one call by exactly that extra entry. -/
theorem C9_consent_idempotent_amended :
    (∀ (u dcid : String) (s : Logic.MeroDocsState),
      Logic.set_consent u dcid (Logic.set_consent u dcid s) =
        Logic.set_consent u dcid s) ∧
    (∀ (u dcid : String) (s : Logic.MeroDocsState),
      Logic.has_consented u dcid (Logic.set_consent u dcid s) = true) ∧
    (∀ (caller : String) (t : Nat) (cid did : String) (s : Registry.RegState),
      isOkE (Registry.record_consent_for_context caller t cid did s) = true →
      Registry.hasConsentAfter
          (Registry.record_consent_for_context caller t cid did s) cid caller did
          = some true ∧
        Registry.auditAfter
            (Registry.record_consent_for_context caller t cid did s) cid =
          some ((lookupA cid s.audit_trail).getD [] ++
            [{ entry_id := Registry.generate_audit_id t, user_id := caller
               action := .ConsentGiven, timestamp := t, context_id := cid
               document_id := some did, consent_given := some true
               document_hash_after_action := none, metadata := none }])) := by
  refine ⟨?_, ?_, ?_⟩
  · intro u dcid s
    simp [Logic.set_consent, insertA_insertA_same]
  · intro u dcid s
    simp [Logic.has_consented, Logic.set_consent, lookupA_insertA_self]
  · intro caller t cid did s hok
    cases hv : Registry.validate_id cid with
    | error e => simp [Registry.record_consent_for_context, hv, isOkE] at hok
    | ok u =>
      cases hv2 : Registry.validate_id did with
      | error e => simp [Registry.record_consent_for_context, hv, hv2, isOkE] at hok
      | ok u2 =>
        by_cases hpart : Registry.is_context_participant cid caller s = true
        · by_cases hdoc : (match lookupA did s.documents with
              | some d => decide (d.context_id = cid)
              | none => false) = true
          · simp only [Registry.hasConsentAfter, Registry.auditAfter,
              Registry.record_consent_for_context, Registry.add_audit_entry, hv, hv2,
              hpart, hdoc, if_true, ite_true, not_true, ite_false,
              Registry.has_user_given_consent, lookupA_insertA_self]
            constructor
            · simp [List.any_append]
            · simp
          · simp [Registry.record_consent_for_context, hv, hv2, hpart, hdoc, isOkE] at hok
        · simp [Registry.record_consent_for_context, hv, hv2, hpart, isOkE] at hok

/-- Witness for the amended C9: concrete idempotence of `set_consent` on the
demo state, and a concrete successful registry consent call whose only state
change is the appended audit entry. -/
theorem C9_consent_idempotent_amended_witness :
    (Logic.set_consent "B" "doc1" (Logic.set_consent "B" "doc1" Logic.demoState) =
        Logic.set_consent "B" "doc1" Logic.demoState) ∧
      (Logic.has_consented "B" "doc1"
        (Logic.set_consent "B" "doc1" Logic.demoState) = true) ∧
      (Registry.hasConsentAfter
          (Registry.record_consent_for_context "B" 3 "ctx1" "doc1" Registry.c9Base)
          "ctx1" "B" "doc1" = some true ∧
        Registry.auditAfter
            (Registry.record_consent_for_context "B" 3 "ctx1" "doc1" Registry.c9Base)
            "ctx1" =
          some ((lookupA "ctx1" Registry.c9Base.audit_trail).getD [] ++
            [{ entry_id := Registry.generate_audit_id 3, user_id := "B"
               action := .ConsentGiven, timestamp := 3, context_id := "ctx1"
               document_id := some "doc1", consent_given := some true
               document_hash_after_action := none, metadata := none }])) :=
  ⟨C9_consent_idempotent_amended.1 "B" "doc1" Logic.demoState,
    C9_consent_idempotent_amended.2.1 "B" "doc1" Logic.demoState,
    C9_consent_idempotent_amended.2.2 "B" 3 "ctx1" "doc1" Registry.c9Base (by decide)⟩

/-- C1 evidence (the code violates the claim): in the canister's async
`execute_milestone` *nothing* is written before the transfer `await` — the
check phase is a pure reader (its Lean type has no state output, mirroring
the source's shared borrow), so during call 1's suspension the milestone is
still `Approved` and the balance still 100.  A second call interleaved at the
suspension point therefore passes the same checks on the very same state
(`execute_milestone_check` applied to `c1State` twice), both calls issue a
100-token transfer, and both commit phases succeed: the milestone ends
`Executed` with balance 0, after **two** payouts of 100 against an escrow of
100 — not one success and one error as the claim requires. -/
theorem C1_reentrancy_double_spend :
    Canister.execute_milestone_check "agr1" 1 Canister.c1State
        = .ok (100, "R", 100, "m1") ∧
      (lookupA "agr1"
        ((Canister.execute_milestone_commit "O" 5 "agr1" 1 100 100 "m1"
          Canister.c1State).agreements)).map
          (fun a => (Canister.findM a.milestones 1).map (·.status))
        = some (some MilestoneStatus.Executed) ∧
      lookupA "agr1" Canister.c1AfterBoth.agreement_balances = some 0 ∧
      (lookupA "agr1" Canister.c1AfterBoth.agreements).map
          (fun a => (Canister.findM a.milestones 1).map (·.status))
        = some (some MilestoneStatus.Executed) :=
  ⟨rfl, by decide, by decide, by decide⟩

end MeroSign
